import Mathlib

/-!
Shallow embedding of `src/main.py` (YouTube Music Discord Rich Presence).

The embedding models, faithfully to the Python source:
* Python string primitives used by the code (`str.strip`, `str.lower`,
  `str.split`, substring containment `in`, `urllib.parse.quote`),
* `YouTubeMusicRPC.parse_title` (line 175) including the prefix-glyph strip,
  the suffix-removal regexes and the separator split,
* `YouTubeMusicRPC._calculate_match_score` (line 319),
* `YouTubeMusicRPC._process_search_results` (line 263),
* `CacheManager.get` / `CacheManager.set` / `CacheManager._clean_expired`
  (lines 72-101),
* `YouTubeMusicRPC.fetch_track_metadata` (line 214), with the two
  `ytmusic.search` calls and the exception path modelled by an oracle,
* `YouTubeMusicRPC.connect_discord` (line 127),
* one iteration of the body of `YouTubeMusicRPC.run` (lines 400-433).

Wall-clock time (`time.time()`) is passed explicitly as an integer
parameter; external collaborators (window enumeration, the search client,
the Discord pipe) are parameters of the functions that call them.
Search results are Python dicts; a result is modelled by the fields the
code reads plus a flag recording whether the dict carries any further
keys, which is what the dict truthiness test `not best_result` can see.
-/

namespace YTMRPC

/-- Python regex `\s` / `str.isspace` on one character (Unicode whitespace,
given by code point). -/
def pyIsSpace (c : Char) : Bool :=
  let n := c.toNat
  n = 0x20 ∨ n = 0x9 ∨ n = 0xa ∨ n = 0xb ∨ n = 0xc ∨ n = 0xd ∨
  n = 0x1c ∨ n = 0x1d ∨ n = 0x1e ∨ n = 0x1f ∨ n = 0x85 ∨ n = 0xa0 ∨
  n = 0x1680 ∨ (0x2000 ≤ n ∧ n ≤ 0x200a) ∨ n = 0x2028 ∨ n = 0x2029 ∨
  n = 0x202f ∨ n = 0x205f ∨ n = 0x3000

/-- Python `str.lower` on one character (ASCII case mapping; every string the
code lowercases and then compares against is an ASCII marker). -/
def pyLowerChar (c : Char) : Char :=
  if 'A' ≤ c ∧ c ≤ 'Z' then Char.ofNat (c.toNat + 32) else c

/-- Python `str.lower` on a character list. -/
def pyLowerL (l : List Char) : List Char := l.map pyLowerChar

/-- Python `str.strip()` on a character list. -/
def pyStripL (l : List Char) : List Char :=
  ((l.dropWhile pyIsSpace).reverse.dropWhile pyIsSpace).reverse

/-- Python substring containment `needle in hay` on character lists. -/
def containsSub (hay needle : List Char) : Bool :=
  match hay with
  | [] => needle.isEmpty
  | _ :: t => needle.isPrefixOf hay || containsSub t needle

/-- Length bound for `List.dropWhile`, used for termination of the
splitting functions below. -/
theorem length_dropWhile_le {α : Type} (p : α → Bool) (l : List α) :
    (l.dropWhile p).length ≤ l.length := by
  induction l with
  | nil => simp [List.dropWhile]
  | cons c t ih =>
    simp only [List.dropWhile]
    cases p c with
    | false => simp
    | true => exact Nat.le_succ_of_le ih

/-- Python `str.split()` with no argument, with explicit fuel so that the
definition is structurally recursive: split on runs of whitespace,
discarding empty pieces. Each step consumes at least one character, so
fuel equal to the input length is always sufficient. -/
def pySplitWsFuel : Nat → List Char → List (List Char)
  | 0, _ => []
  | _, [] => []
  | fuel + 1, c :: t =>
    if pyIsSpace c then pySplitWsFuel fuel t
    else ((c :: t).takeWhile (fun d => !pyIsSpace d)) ::
      pySplitWsFuel fuel (t.dropWhile (fun d => !pyIsSpace d))

/-- Python `str.split()` with no argument. -/
def pySplitWs (l : List Char) : List (List Char) :=
  pySplitWsFuel l.length l

/-- Uppercase hexadecimal digit, as produced by `urllib.parse.quote`. -/
def hexDigit (n : Nat) : Char :=
  if n < 10 then Char.ofNat (48 + n) else Char.ofNat (55 + n)

/-- Bytes of the UTF-8 encoding of a Unicode code point (what
`urllib.parse.quote` percent-encodes). -/
def utf8Bytes (n : Nat) : List Nat :=
  if n < 0x80 then [n]
  else if n < 0x800 then [0xc0 + n / 64, 0x80 + n % 64]
  else if n < 0x10000 then [0xe0 + n / 4096, 0x80 + (n / 64) % 64, 0x80 + n % 64]
  else [0xf0 + n / 262144, 0x80 + (n / 4096) % 64, 0x80 + (n / 64) % 64, 0x80 + n % 64]

/-- Characters `urllib.parse.quote` leaves unescaped (the always-safe set
plus the default `safe='/'`). -/
def quoteSafe (c : Char) : Bool :=
  ('A' ≤ c ∧ c ≤ 'Z') ∨ ('a' ≤ c ∧ c ≤ 'z') ∨ ('0' ≤ c ∧ c ≤ '9') ∨
  c = '_' ∨ c = '.' ∨ c = '-' ∨ c = '~' ∨ c = '/'

/-- Model of `urllib.parse.quote(s)` on a character list. -/
def pyQuoteL (l : List Char) : List Char :=
  l.flatMap fun c =>
    if quoteSafe c then [c]
    else (utf8Bytes c.toNat).flatMap fun b => ['%', hexDigit (b / 16), hexDigit (b % 16)]

/-- Model of `urllib.parse.quote` on strings. -/
def pyQuote (s : String) : String := (pyQuoteL s.toList).asString

/-- Python truthiness of an optional string (`None` and `""` are falsy). -/
def strTruthy : Option String → Bool
  | none => false
  | some s => !(s = "")

/-- Python `x or ''` for an optional string. -/
def orEmpty (a : Option String) : String :=
  if strTruthy a then a.getD "" else ""

/-- Python `x or "Unknown Artist"` for an optional string
(line 259 and line 268 of the source). -/
def orUnknown (a : Option String) : String :=
  if strTruthy a then a.getD "" else "Unknown Artist"

/-! ### parse_title (source lines 175-212) -/

/-- Membership in the regex class of line 181,
`[\s\-\|•>▶️⏸❚►⏵]`: whitespace, hyphen, pipe, bullet, greater-than,
the play/pause glyphs (with the emoji variation selector U+FE0F listed as
its own class member). -/
def inPrefixClass (c : Char) : Bool :=
  pyIsSpace c ∨ c = '-' ∨ c = '|' ∨ c = '•' ∨ c = '>' ∨ c = '▶' ∨
  c.toNat = 0xfe0f ∨ c = '⏸' ∨ c = '❚' ∨ c = '►' ∨ c = '⏵'

/-- Whether a suffix-removal regex `\s*(?:D)\s*M.*$` (lines 184-190:
optional whitespace, one dash-class character from `dashes`, optional
whitespace, the case-insensitive marker `M`, then the rest of the line)
matches at the start of `l`. -/
def suffixMatchHere (dashes : List Char) (marker : List Char) (l : List Char) : Bool :=
  match l.dropWhile pyIsSpace with
  | [] => false
  | d :: rest =>
    decide (d ∈ dashes) && marker.isPrefixOf (pyLowerL (rest.dropWhile pyIsSpace))

/-- One application of `re.sub(pattern, '', cleaned)` for a suffix pattern of
lines 184-190: the match, if any, starts at the leftmost position where the
pattern matches and runs to the end of the string, so the result is the
prefix before that position. -/
def removeSuffixPat (dashes : List Char) (marker : List Char) : List Char → List Char
  | [] => []
  | c :: rest =>
    if suffixMatchHere dashes marker (c :: rest) then []
    else c :: removeSuffixPat dashes marker rest

/-- The dash alternatives `[-–—]` used by the first five suffix patterns. -/
def dashClass : List Char := ['-', '–', '—']

/-- All six suffix removals of lines 184-194, applied in source order. -/
def removeSuffixes (l : List Char) : List Char :=
  let l1 := removeSuffixPat dashClass "youtube music".toList l
  let l2 := removeSuffixPat dashClass "opera gx".toList l1
  let l3 := removeSuffixPat dashClass "chrome".toList l2
  let l4 := removeSuffixPat dashClass "firefox".toList l3
  let l5 := removeSuffixPat dashClass "edge".toList l4
  removeSuffixPat ['|'] "youtube music".toList l5

/-- Model of `re.split(r'\s S \s', l)` for a single separator character `S`
wrapped in single-whitespace boundaries (line 199), scanning left to right
with non-overlapping matches. `cur` is the reversed piece read so far. -/
def splitSepAux (sep : Char) (cur : List Char) : List Char → List (List Char)
  | [] => [cur.reverse]
  | [a] => [(a :: cur).reverse]
  | [a, b] => [(b :: a :: cur).reverse]
  | a :: b :: c :: rest =>
    if pyIsSpace a ∧ b = sep ∧ pyIsSpace c then
      cur.reverse :: splitSepAux sep [] rest
    else
      splitSepAux sep (a :: cur) (b :: c :: rest)

/-- Model of `re.split` on a one-separator pattern, from the start. -/
def splitSep (sep : Char) (l : List Char) : List (List Char) :=
  splitSepAux sep [] l

/-- The separator list of line 199 in priority order:
em dash, en dash, hyphen, middle dot, pipe. -/
def separators : List Char := ['—', '–', '-', '·', '|']

/-- The separator loop of lines 201-209: try each separator in order; on the
first split with at least two parts whose stripped `song` and `artist` are
truthy and whose lowercased artist is not a known app name, return the pair. -/
def trySeparators (cleaned : List Char) : List Char → Option (List Char × List Char)
  | [] => none
  | sep :: more =>
    let parts := splitSep sep cleaned
    match parts with
    | p0 :: p1 :: _ =>
      let song := pyStripL p0
      let artist := pyStripL p1
      if song ≠ [] ∧ artist ≠ [] ∧
          pyLowerL artist ≠ "youtube music".toList ∧
          pyLowerL artist ≠ "opera gx".toList then
        some (song, artist)
      else
        trySeparators cleaned more
    | _ => trySeparators cleaned more

/-- Model of `YouTubeMusicRPC.parse_title` (lines 175-212) on character
lists: strip, drop the leading glyph run of line 181, remove the six
browser/site suffixes, strip again, then try the separators; if none
applies, the whole cleaned string is the song and the artist is `None`,
and an empty cleaned string gives `(None, None)`. -/
def parseTitleL (title : List Char) : Option (List Char) × Option (List Char) :=
  if title = [] then (none, none)
  else
    let cleaned0 := (pyStripL title).dropWhile inPrefixClass
    let cleaned := pyStripL (removeSuffixes cleaned0)
    match trySeparators cleaned separators with
    | some (song, artist) => (some song, some artist)
    | none => (if cleaned = [] then none else some cleaned, none)

/-- Model of `YouTubeMusicRPC.parse_title` on strings. -/
def parseTitle (title : String) : Option String × Option String :=
  let (s, a) := parseTitleL title.toList
  (s.map List.asString, a.map List.asString)

/-! ### Search results and the match scorer (source lines 263-343) -/

/-- One element of a result's `artists` list: a dict read through
`a.get("name", "")` / `a.get("name")`. `none` models an absent key. -/
structure ArtistRec where
  name : Option String
deriving DecidableEq, Repr

/-- One element of a result's `thumbnails` list, read through `.get("url")`. -/
structure ThumbRec where
  url : Option String
deriving DecidableEq, Repr

/-- A search-result dict, modelled by the keys the code reads (each `none`
standing for an absent key) plus `otherKeys`, true when the dict carries
any key beyond the modelled ones, so that dict truthiness is expressible. -/
structure SearchResult where
  title : Option String
  artists : Option (List ArtistRec)
  thumbnails : Option (List ThumbRec)
  videoId : Option String
  durationSeconds : Option Int
  category : Option String
  otherKeys : Bool
deriving DecidableEq, Repr

/-- Python truthiness of a search-result dict: it is truthy iff it has at
least one key. -/
def SearchResult.truthy (r : SearchResult) : Bool :=
  r.title.isSome || r.artists.isSome || r.thumbnails.isSome ||
  r.videoId.isSome || r.durationSeconds.isSome || r.category.isSome || r.otherKeys

/-- The empty dict `{}`: the only falsy search result. -/
def emptyResult : SearchResult :=
  ⟨none, none, none, none, none, none, false⟩

/-- Truthiness of `result.get("artists")` (line 332): key present and the
list non-empty. -/
def artistsTruthy : Option (List ArtistRec) → Bool
  | none => false
  | some l => !l.isEmpty

/-- Model of `" ".join(a.get("name", "").lower() for a in result["artists"])`
(line 333). -/
def joinedArtistNames (l : List ArtistRec) : List Char :=
  (String.intercalate " " (l.map fun a => (pyLowerL (a.name.getD "").toList).asString)).toList

/-- Model of `YouTubeMusicRPC._calculate_match_score` (lines 319-343).
Scores are sums of the exactly-representable floats 1.0 and 2.0, so the
score is modelled as an integer. -/
def calcMatchScore (r : SearchResult) (songHint : String) (artistHint : Option String) : Int :=
  let titleScore : Int :=
    let resultTitle := pyLowerL (r.title.getD "").toList
    if resultTitle ≠ [] then
      if containsSub resultTitle (pyLowerL songHint.toList) then 2
      else if (pySplitWs (pyLowerL songHint.toList)).any
          (fun w => containsSub resultTitle w) then 1
      else 0
    else 0
  let artistScore : Int :=
    if strTruthy artistHint ∧ artistsTruthy r.artists then
      let resultArtists := joinedArtistNames (r.artists.getD [])
      let hint := (artistHint.getD "").toList
      if containsSub resultArtists (pyLowerL hint) then 2
      else if (pySplitWs (pyLowerL hint)).any
          (fun w => containsSub resultArtists w) then 1
      else 0
    else 0
  let categoryScore : Int := if r.category = some "Songs" then 1 else 0
  titleScore + artistScore + categoryScore

/-- The scoring loop of lines 273-280: fold over `results[:3]` keeping the
first strictly-greater score, starting from `best_score = -1`,
`best_result = None`. -/
def pickLoop (songHint : String) (artistHint : Option String) :
    List SearchResult → Int → Option SearchResult → Option SearchResult
  | [], _, best => best
  | r :: rest, bestScore, best =>
    let score := calcMatchScore r songHint artistHint
    if score > bestScore then pickLoop songHint artistHint rest score (some r)
    else pickLoop songHint artistHint rest bestScore best

/-- The state of `best_result` right after the scoring loop, before the
`if not best_result` guard of line 282. -/
def loopBest (results : List SearchResult) (songHint : String)
    (artistHint : Option String) : Option SearchResult :=
  pickLoop songHint artistHint (results.take 3) (-1) none

/-- Python truthiness of `best_result` at line 282: `None` and the empty
dict are falsy. -/
def optResultTruthy : Option SearchResult → Bool
  | none => false
  | some r => r.truthy

/-- Whether the fallback guard of lines 282-283 (`if not best_result:`)
fires, for a given result list and hints. -/
def fallbackGuardFires (results : List SearchResult) (songHint : String)
    (artistHint : Option String) : Bool :=
  !optResultTruthy (loopBest results songHint artistHint)

/-- The value of `best_result` after lines 282-283: the loop's pick, or
`results[0]` when the pick is falsy. -/
def selectBest (results : List SearchResult) (songHint : String)
    (artistHint : Option String) : Option SearchResult :=
  let best := loopBest results songHint artistHint
  if optResultTruthy best then best else results.head?

/-! ### TrackInfo and _process_search_results (source lines 35-43, 263-317) -/

/-- The `TrackInfo` dataclass (lines 35-43), with its Python defaults. -/
structure TrackInfo where
  song_name : String
  artist_name : String
  artwork_url : Option String := none
  listen_url : Option String := none
  duration : Option Int := none
  timestamp : Int := 0
deriving DecidableEq, Repr

/-- The search-page URL `https://music.youtube.com/search?q=` + quoted query
(lines 260, 269, 301). -/
def searchUrl (query : String) : String :=
  "https://music.youtube.com/search?q=" ++ pyQuote query

/-- The watch URL built from a result's video id (line 304). -/
def watchUrl (videoId : String) : String :=
  "https://music.youtube.com/watch?v=" ++ videoId

/-- The synthesized record of lines 266-270, returned by
`_process_search_results` when the result list is empty. -/
def zeroResultsRecord (songHint : String) (artistHint : Option String)
    (query : String) : TrackInfo :=
  { song_name := songHint, artist_name := orUnknown artistHint,
    listen_url := some (searchUrl query) }

/-- Model of `YouTubeMusicRPC._process_search_results` (lines 263-317).
When the result list is non-empty the selected best result is extracted;
`selectBest` is `some` in that case, and the `emptyResult` default is never
read. -/
def processSearchResults (results : List SearchResult) (songHint : String)
    (artistHint : Option String) (query : String) : TrackInfo :=
  if results.isEmpty then zeroResultsRecord songHint artistHint query
  else
    let best := (selectBest results songHint artistHint).getD emptyResult
    let songName := best.title.getD songHint
    let artistName :=
      if artistsTruthy best.artists then
        let names := (best.artists.getD []).filterMap fun a =>
          if strTruthy a.name then some (a.name.getD "") else none
        if names.isEmpty then orUnknown artistHint
        else String.intercalate ", " names
      else orUnknown artistHint
    let artworkUrl :=
      match best.thumbnails with
      | some l => if l.isEmpty then none else (l.getLast?).bind ThumbRec.url
      | none => none
    let listenUrl :=
      if strTruthy best.videoId then watchUrl (best.videoId.getD "")
      else searchUrl query
    let durationVal :=
      match best.durationSeconds with
      | some n => if n ≠ 0 then some n else none
      | none => none
    { song_name := songName, artist_name := artistName,
      artwork_url := artworkUrl, listen_url := some listenUrl,
      duration := durationVal }

/-! ### CacheManager (source lines 45-101) -/

/-- A stored cache value: the dict written at lines 243-249 with the
timestamp injected at line 86. -/
structure CacheVal where
  song_name : String
  artist_name : String
  artwork_url : Option String
  listen_url : Option String
  duration : Option Int
  timestamp : Int
deriving DecidableEq, Repr

/-- The mutable state of a `CacheManager`: its configured duration and the
dict `self.cache`, as an insertion-ordered association list with the keys
of a Python dict (pairwise distinct). -/
structure CacheManager where
  cacheDuration : Int
  cache : List (String × CacheVal)
deriving DecidableEq, Repr

/-- First binding of a key in the dict (`self.cache[key]` lookup). -/
def lookupKey (key : String) (c : List (String × CacheVal)) : Option CacheVal :=
  (c.find? fun p => p.1 == key).map Prod.snd

/-- Removal of a key from the dict (`del self.cache[key]`, line 79). -/
def eraseKey (key : String) (c : List (String × CacheVal)) :
    List (String × CacheVal) :=
  c.filter fun p => !(p.1 == key)

/-- Assignment `self.cache[key] = value` (line 87): replace the binding in
place if the key is present, append otherwise. -/
def insertReplace (key : String) (v : CacheVal) :
    List (String × CacheVal) → List (String × CacheVal)
  | [] => [(key, v)]
  | p :: t => if p.1 == key then (key, v) :: t else p :: insertReplace key v t

/-- Model of `CacheManager.get` (lines 72-82): `none` on a missing key; on an
entry older than `cache_duration` the entry is deleted and `none` returned;
otherwise the entry. The returned manager is the state after the call. -/
def CacheManager.get (cm : CacheManager) (key : String) (now : Int) :
    Option CacheVal × CacheManager :=
  match lookupKey key cm.cache with
  | none => (none, cm)
  | some item =>
    if now - item.timestamp > cm.cacheDuration then
      (none, { cm with cache := eraseKey key cm.cache })
    else
      (some item, cm)

/-- Model of `CacheManager._clean_expired` (lines 93-101): drop every entry
older than the duration. -/
def cleanExpired (now : Int) (dur : Int) (c : List (String × CacheVal)) :
    List (String × CacheVal) :=
  c.filter fun p => !(now - p.2.timestamp > dur)

/-- Lines 86-87 of `CacheManager.set`: stamp the value with `now` and store
it, without the periodic sweep. -/
def CacheManager.setStore (cm : CacheManager) (key : String) (v : CacheVal)
    (now : Int) : CacheManager :=
  { cm with cache := insertReplace key { v with timestamp := now } cm.cache }

/-- Model of `CacheManager.set` (lines 84-91): store the stamped value, then
run `_clean_expired` when `len(self.cache) % 50 == 0`. -/
def CacheManager.set (cm : CacheManager) (key : String) (v : CacheVal)
    (now : Int) : CacheManager :=
  let stored := cm.setStore key v now
  if stored.cache.length % 50 == 0 then
    { stored with cache := cleanExpired now stored.cacheDuration stored.cache }
  else
    stored

/-! ### fetch_track_metadata (source lines 214-261) -/

/-- Outcomes of the two `ytmusic.search` calls of one
`fetch_track_metadata` invocation: each either returns a result list or
raises (`Except.error`). -/
structure SearchOracle where
  filtered : Except Unit (List SearchResult)
  unfiltered : Except Unit (List SearchResult)

/-- The cache key `f"{song_hint}|{artist_hint or ''}"` (line 216), which is
also the loop's `track_key` (line 414). -/
def trackCacheKey (songHint : String) (artistHint : Option String) : String :=
  songHint ++ "|" ++ orEmpty artistHint

/-- The search query of line 232:
`f"{song_hint} {artist_hint}" if artist_hint else song_hint`. -/
def searchQuery (songHint : String) (artistHint : Option String) : String :=
  if strTruthy artistHint then songHint ++ " " ++ artistHint.getD "" else songHint

/-- The record of lines 257-261, returned when a search raises. Its query
string `f"{song_hint} {artist_hint or ''}"` always carries the space. -/
def excFallbackRecord (songHint : String) (artistHint : Option String) : TrackInfo :=
  { song_name := songHint, artist_name := orUnknown artistHint,
    listen_url := some (searchUrl (songHint ++ " " ++ orEmpty artistHint)) }

/-- The dict built at lines 243-249 from a resolved `TrackInfo` (its
timestamp is injected later by `CacheManager.set`). -/
def cacheDataOf (ti : TrackInfo) : CacheVal :=
  { song_name := ti.song_name, artist_name := ti.artist_name,
    artwork_url := ti.artwork_url, listen_url := ti.listen_url,
    duration := ti.duration, timestamp := 0 }

/-- The `TrackInfo` built from a cache hit at lines 222-228. -/
def trackInfoOfCached (v : CacheVal) : TrackInfo :=
  { song_name := v.song_name, artist_name := v.artist_name,
    artwork_url := v.artwork_url, listen_url := v.listen_url,
    duration := v.duration }

/-- Model of `YouTubeMusicRPC.fetch_track_metadata` (lines 214-261): cache
lookup, then the filtered search, the unfiltered retry when the filtered
search returns no results, result processing and the cache write; any
raising search degrades to the basic record of lines 257-261 (the dataclass
`track_info` is always truthy, so the line-242 guard always caches on the
non-raising path). Returns the record and the cache state after the call. -/
def fetchTrackMetadata (oracle : SearchOracle) (songHint : String)
    (artistHint : Option String) (now : Int) (cm : CacheManager) :
    TrackInfo × CacheManager :=
  let cacheKey := trackCacheKey songHint artistHint
  let hit := cm.get cacheKey now
  match hit.1 with
  | some v => (trackInfoOfCached v, hit.2)
  | none =>
    let query := searchQuery songHint artistHint
    match oracle.filtered with
    | .error _ => (excFallbackRecord songHint artistHint, hit.2)
    | .ok r1 =>
      match (if r1.isEmpty then oracle.unfiltered else .ok r1) with
      | .error _ => (excFallbackRecord songHint artistHint, hit.2)
      | .ok results =>
        let ti := processSearchResults results songHint artistHint query
        (ti, hit.2.set cacheKey (cacheDataOf ti) now)

/-! ### connect_discord (source lines 127-149) -/

/-- What one connection attempt does: connects, raises one of the two
retryable errors (`DiscordNotFound`, `InvalidPipe`), or raises anything
else. -/
inductive AttemptOutcome
  | success
  | retryable
  | fatal
deriving DecidableEq, Repr

/-- Observable side effects of `connect_discord`: a connection attempt, or a
`time.sleep(RETRY_DELAY)`. -/
inductive CEvent
  | attempt
  | sleep
deriving DecidableEq, Repr

/-- Result of a `connect_discord` call: the returned boolean, the final
`connection_retries` counter, and the event trace. -/
structure ConnectResult where
  ok : Bool
  retries : Nat
  events : List CEvent
deriving DecidableEq, Repr

/-- The `for attempt in range(MAX_RETRIES)` loop of lines 129-146, over the
outcomes of the successive attempts: success returns immediately; a
retryable error sleeps only when `attempt < MAX_RETRIES - 1` — that is,
when further attempts remain — and continues; any other exception breaks
out of the loop, which then reports failure. -/
def connectLoop : List AttemptOutcome → Bool × List CEvent
  | [] => (false, [])
  | o :: rest =>
    match o with
    | .success => (true, [.attempt])
    | .fatal => (false, [.attempt])
    | .retryable =>
      if rest.isEmpty then (false, [.attempt])
      else
        let tail := connectLoop rest
        (tail.1, .attempt :: .sleep :: tail.2)

/-- Model of `YouTubeMusicRPC.connect_discord` (lines 127-149): run the
retry loop over the `MAX_RETRIES` attempt outcomes; on success
`connection_retries = 0` is set and `True` returned, and on falling out of
the loop (exhausted or aborted by a non-retryable error)
`connection_retries` is incremented and `False` returned. -/
def connectDiscord (outcomes : Nat → AttemptOutcome) (maxRetries : Nat)
    (retries : Nat) : ConnectResult :=
  let r := connectLoop ((List.range maxRetries).map outcomes)
  if r.1 then { ok := true, retries := 0, events := r.2 }
  else { ok := false, retries := retries + 1, events := r.2 }

/-! ### One iteration of the run loop (source lines 400-433) -/

/-- Observable actions of one loop iteration. -/
inductive TickEvent
  | reconnect (ok : Bool)
  | sleepRetry
  | resolve
  | publish (ok : Bool)
  | clearPresence
deriving DecidableEq, Repr

/-- The loop-carried state of `YouTubeMusicRPC.run`. -/
structure LoopState where
  lastTrackKey : Option String
  startTimestamp : Int
  lastUpdateTime : Int
  connectionRetries : Nat
  cm : CacheManager
deriving DecidableEq, Repr

/-- External inputs of one iteration: the outcome a reconnect attempt would
have, the window title (or none), the search outcomes, whether
`update_presence` succeeds, and the current time. -/
structure TickInput where
  reconnectOk : Bool
  windowTitle : Option String
  oracle : SearchOracle
  publishOk : Bool
  now : Int

/-- Lines 407-431: the part of the loop body after the reconnect guard. -/
def tickBody (st : LoopState) (inp : TickInput) : LoopState × List TickEvent :=
  match inp.windowTitle with
  | some title =>
    let parsed := parseTitle title
    if strTruthy parsed.1 then
      let song := parsed.1.getD ""
      let trackKey := trackCacheKey song parsed.2
      if some trackKey ≠ st.lastTrackKey then
        let r := fetchTrackMetadata inp.oracle song parsed.2 inp.now st.cm
        if inp.publishOk then
          let st' := { st with
            lastTrackKey := some trackKey
            startTimestamp := inp.now
            lastUpdateTime := inp.now
            cm := r.2 }
          (st', [.resolve, .publish true])
        else
          ({ st with cm := r.2 }, [.resolve, .publish false])
      else
        (st, [])
    else
      (st, [])
  | none =>
    if st.lastTrackKey ≠ none then
      ({ st with lastTrackKey := none }, [.clearPresence])
    else
      (st, [])

/-- Model of one iteration of the `while True` loop (lines 400-433): when
`connection_retries > 0` a reconnect is attempted first; its failure
increments the counter, sleeps and abandons the iteration, its success
zeroes the counter and the body runs. -/
def tick (st : LoopState) (inp : TickInput) : LoopState × List TickEvent :=
  if st.connectionRetries > 0 then
    if inp.reconnectOk then
      let r := tickBody { st with connectionRetries := 0 } inp
      (r.1, .reconnect true :: r.2)
    else
      ({ st with connectionRetries := st.connectionRetries + 1 },
       [.reconnect false, .sleepRetry])
  else
    tickBody st inp

/-! ### Derived notions used by the theorems -/

/-- Whether an optional `listen_url` holds a non-empty string. -/
def listenUrlNonEmpty : Option String → Bool
  | none => false
  | some s => !(s == "")

/-- The combined outcome of the search step of `fetch_track_metadata`
(lines 232-237): the filtered call, retried without a filter when it
returns no results; an error on either used call makes the whole step
raise. -/
def searchOutcome (oracle : SearchOracle) : Except Unit (List SearchResult) :=
  match oracle.filtered with
  | .error e => .error e
  | .ok r1 => if r1.isEmpty then oracle.unfiltered else .ok r1

/-- Concrete cache value used by witnesses and counterexamples. -/
def v0 : CacheVal :=
  ⟨"s", "ar", none, some "u", none, 0⟩

/-- An empty cache with the default 300-second duration. -/
def emptyCache : CacheManager := ⟨300, []⟩

/-- An oracle whose searches raise. -/
def oracleRaises : SearchOracle := ⟨.error (), .error ()⟩

/-- An oracle whose searches both return zero results. -/
def oracleNoResults : SearchOracle := ⟨.ok [], .ok []⟩

/-! ### Supporting lemmas -/

/-- The search URL always starts with the non-empty literal prefix. -/
theorem searchUrl_ne_empty (q : String) : searchUrl q ≠ "" := by
  intro h
  have h2 := congrArg String.length h
  rw [searchUrl, String.length_append] at h2
  have h3 : ("https://music.youtube.com/search?q=" : String).length = 35 := rfl
  have h4 : ("" : String).length = 0 := rfl
  omega

/-- The watch URL always starts with the non-empty literal prefix. -/
theorem watchUrl_ne_empty (i : String) : watchUrl i ≠ "" := by
  intro h
  have h2 := congrArg String.length h
  rw [watchUrl, String.length_append] at h2
  have h3 : ("https://music.youtube.com/watch?v=" : String).length = 34 := rfl
  have h4 : ("" : String).length = 0 := rfl
  omega

/-- The record synthesized on a raising search has a non-empty link. -/
theorem excFallbackRecord_listen (s : String) (a : Option String) :
    listenUrlNonEmpty (excFallbackRecord s a).listen_url = true := by
  simp [excFallbackRecord, listenUrlNonEmpty, searchUrl_ne_empty]

/-- Every record produced by `_process_search_results` has a non-empty
link: the zero-results record links the provider's search page, and a
selected result links its watch page or the search page. -/
theorem processSearchResults_listen (results : List SearchResult)
    (s : String) (a : Option String) (q : String) :
    listenUrlNonEmpty (processSearchResults results s a q).listen_url = true := by
  unfold processSearchResults
  split
  · simp [zeroResultsRecord, listenUrlNonEmpty, searchUrl_ne_empty]
  · simp only [listenUrlNonEmpty]
    split
    · simp [watchUrl_ne_empty]
    · simp [searchUrl_ne_empty]

/-- A cache hit returns a value stored in the cache. -/
theorem get_fst_some_mem (cm : CacheManager) (key : String) (now : Int)
    (v : CacheVal) (h : (cm.get key now).1 = some v) :
    ∃ k, (k, v) ∈ cm.cache := by
  unfold CacheManager.get at h
  cases hl : lookupKey key cm.cache with
  | none => rw [hl] at h; exact absurd h (by simp)
  | some item =>
    rw [hl] at h
    unfold lookupKey at hl
    cases hf : cm.cache.find? fun p => p.1 == key with
    | none => rw [hf] at hl; exact absurd hl (by simp)
    | some p =>
      rw [hf] at hl
      have hmem := List.mem_of_find?_eq_some hf
      have hv : item = v := by
        by_cases hexp : now - item.timestamp > cm.cacheDuration
        · simp [hexp] at h
        · simp [hexp] at h; exact h
      refine ⟨p.1, ?_⟩
      have : p.2 = v := by
        simp at hl
        rw [hl, hv]
      rw [← this]
      simpa using hmem

end YTMRPC

open YTMRPC

/-- C9: `parse_title` on the exact title
`"▶ Blinding Lights — The Weeknd — YouTube Music — Opera GX"` yields the
pair `("Blinding Lights", "The Weeknd")`, and on the separator-free title
`"Lo-fi Beats"` yields `("Lo-fi Beats", None)`. -/
theorem claim_C9_parse_title_scenarios :
    parseTitle "▶ Blinding Lights — The Weeknd — YouTube Music — Opera GX" =
      (some "Blinding Lights", some "The Weeknd") ∧
    parseTitle "Lo-fi Beats" = (some "Lo-fi Beats", none) := by
  constructor <;> decide

/-- C1: for any hints with a non-empty song hint, any search outcomes
(zero results on both calls or a raising call included) and any cache
whose entries carry non-empty listen URLs — the shape of every entry this
program writes — `fetch_track_metadata` returns a record whose
`listen_url` is a non-empty string. -/
theorem claim_C1_fetch_listen_url_nonempty (oracle : SearchOracle)
    (songHint : String) (artistHint : Option String) (now : Int)
    (cm : CacheManager) (_hs : songHint ≠ "")
    (hwf : ∀ p ∈ cm.cache, listenUrlNonEmpty p.2.listen_url = true) :
    listenUrlNonEmpty
      (fetchTrackMetadata oracle songHint artistHint now cm).1.listen_url = true := by
  unfold fetchTrackMetadata
  cases hget : (cm.get (trackCacheKey songHint artistHint) now).1 with
  | some v =>
    simp only [hget]
    obtain ⟨k, hk⟩ := get_fst_some_mem cm _ now v hget
    have := hwf (k, v) hk
    simpa [trackInfoOfCached, listenUrlNonEmpty] using this
  | none =>
    simp only [hget]
    cases h1 : oracle.filtered with
    | error e => simp [excFallbackRecord_listen]
    | ok r1 =>
      by_cases he : r1.isEmpty
      · cases h2 : oracle.unfiltered with
        | error e => simp [he, h2, excFallbackRecord_listen]
        | ok r2 => simp [he, h2, processSearchResults_listen]
      · simp [he, processSearchResults_listen]

/-- C1 witness: the raising-search case on an empty cache with hints
`("a", None)`. -/
theorem claim_C1_witness :
    listenUrlNonEmpty
      (fetchTrackMetadata oracleRaises "a" none 0 emptyCache).1.listen_url = true :=
  claim_C1_fetch_listen_url_nonempty oracleRaises "a" none 0 emptyCache
    (by decide) (by simp [emptyCache])

/-- C2 counterexample: with hints `("a", None)` and an empty cache, a
raising search and a zero-results search give a different record (the
raising path's `listen_url` ends in an extra encoded space, `q=a%20`
against `q=a`) and a different cache state (the zero-results path writes
its fallback record, the raising path writes nothing). -/
theorem claim_C2_counterexample :
    fetchTrackMetadata oracleRaises "a" none 0 emptyCache ≠
      fetchTrackMetadata oracleNoResults "a" none 0 emptyCache := by
  decide

/-- C2 amended: on a cache miss, a raising search step returns the basic
record of lines 257-261 and performs no cache write, whereas the
zero-results run returns the synthesized record of lines 266-270 and
writes it to the cache; the two records coincide exactly when the artist
hint is truthy, since only then does the raising path's query
`f"{song_hint} {artist_hint or ''}"` match the zero-results query. -/
theorem claim_C2_amended (oracle : SearchOracle) (songHint : String)
    (artistHint : Option String) (now : Int) (cm : CacheManager)
    (hmiss : (cm.get (trackCacheKey songHint artistHint) now).1 = none)
    (hraise : searchOutcome oracle = .error ()) :
    fetchTrackMetadata oracle songHint artistHint now cm =
      (excFallbackRecord songHint artistHint,
       (cm.get (trackCacheKey songHint artistHint) now).2) ∧
    fetchTrackMetadata oracleNoResults songHint artistHint now cm =
      (zeroResultsRecord songHint artistHint (searchQuery songHint artistHint),
       ((cm.get (trackCacheKey songHint artistHint) now).2).set
         (trackCacheKey songHint artistHint)
         (cacheDataOf (zeroResultsRecord songHint artistHint
           (searchQuery songHint artistHint))) now) ∧
    (strTruthy artistHint = true →
      excFallbackRecord songHint artistHint =
        zeroResultsRecord songHint artistHint (searchQuery songHint artistHint)) := by
  refine ⟨?_, ?_, ?_⟩
  · unfold fetchTrackMetadata
    cases h1 : oracle.filtered with
    | error e => simp [hmiss]
    | ok r1 =>
      simp only [searchOutcome, h1] at hraise
      by_cases he : r1.isEmpty
      · rw [if_pos he] at hraise
        simp [hmiss, he, hraise]
      · rw [if_neg he] at hraise
        exact absurd hraise (by simp)
  · unfold fetchTrackMetadata
    simp [hmiss, oracleNoResults, processSearchResults]
  · intro h
    simp [excFallbackRecord, zeroResultsRecord, searchQuery, orEmpty, h]

/-- C2 witness: the raising branch of the amended claim at hints
`("a", None)`, time 0, empty cache. -/
theorem claim_C2_witness :
    fetchTrackMetadata oracleRaises "a" none 0 emptyCache =
      (excFallbackRecord "a" none,
       (emptyCache.get (trackCacheKey "a" none) 0).2) :=
  (claim_C2_amended oracleRaises "a" none 0 emptyCache (by decide) rfl).1

/-- C3 counterexample: with hints `("a", None)`, an empty cache and zero
results from both searches, the synthesized fallback record is written to
the cache under the computed key — the claim says no write occurs. -/
theorem claim_C3_counterexample :
    lookupKey (trackCacheKey "a" none)
      (fetchTrackMetadata oracleNoResults "a" none 0 emptyCache).2.cache ≠ none := by
  decide

/-- C3 amended: `fetch_track_metadata` writes to the cache under the
computed key on every cache-miss path on which the search step does not
raise — the zero-results path included, whose synthesized fallback record
is cached, because the line-242 guard tests the always-truthy dataclass —
and performs no write on a cache hit or when the search raises. -/
theorem claim_C3_amended (oracle : SearchOracle) (songHint : String)
    (artistHint : Option String) (now : Int) (cm : CacheManager) :
    (∀ v, (cm.get (trackCacheKey songHint artistHint) now).1 = some v →
      (fetchTrackMetadata oracle songHint artistHint now cm).2 =
        (cm.get (trackCacheKey songHint artistHint) now).2) ∧
    ((cm.get (trackCacheKey songHint artistHint) now).1 = none →
      searchOutcome oracle = .error () →
      (fetchTrackMetadata oracle songHint artistHint now cm).2 =
        (cm.get (trackCacheKey songHint artistHint) now).2) ∧
    ((cm.get (trackCacheKey songHint artistHint) now).1 = none →
      ∀ results, searchOutcome oracle = .ok results →
        (fetchTrackMetadata oracle songHint artistHint now cm).2 =
          ((cm.get (trackCacheKey songHint artistHint) now).2).set
            (trackCacheKey songHint artistHint)
            (cacheDataOf (processSearchResults results songHint artistHint
              (searchQuery songHint artistHint))) now) := by
  refine ⟨?_, ?_, ?_⟩
  · intro v hv
    unfold fetchTrackMetadata
    simp [hv]
  · intro hmiss hraise
    unfold fetchTrackMetadata
    cases h1 : oracle.filtered with
    | error e => simp [hmiss]
    | ok r1 =>
      simp only [searchOutcome, h1] at hraise
      by_cases he : r1.isEmpty
      · rw [if_pos he] at hraise
        simp [hmiss, he, hraise]
      · rw [if_neg he] at hraise
        exact absurd hraise (by simp)
  · intro hmiss results hok
    unfold fetchTrackMetadata
    cases h1 : oracle.filtered with
    | error e =>
      simp only [searchOutcome, h1] at hok
      exact Except.noConfusion hok
    | ok r1 =>
      simp only [searchOutcome, h1] at hok
      by_cases he : r1.isEmpty
      · rw [if_pos he] at hok
        simp [hmiss, he, hok]
      · rw [if_neg he] at hok
        have hr : r1 = results := by simpa using hok
        subst hr
        simp [hmiss, he]

/-- C3 witness: the zero-results branch of the amended claim at hints
`("a", None)`, time 0, empty cache — the fallback record is cached. -/
theorem claim_C3_witness :
    (fetchTrackMetadata oracleNoResults "a" none 0 emptyCache).2 =
      ((emptyCache.get (trackCacheKey "a" none) 0).2).set
        (trackCacheKey "a" none)
        (cacheDataOf (processSearchResults [] "a" none (searchQuery "a" none))) 0 :=
  (claim_C3_amended oracleNoResults "a" none 0 emptyCache).2.2 (by decide) [] rfl


/-- Concrete cache with 49 distinct, long-expired entries (timestamp 0,
observed at time 1000 with duration 300). -/
def cache49 : CacheManager := ⟨300, (List.range 49).map fun i => (toString i, v0)⟩

/-- Concrete cache holding one long-expired entry under the key "old". -/
def cacheOldOne : CacheManager := ⟨300, [("old", v0)]⟩

set_option maxRecDepth 40000 in
/-- C4 counterexample: the sweep is driven by dict size, not by the count of
`set` calls. On a 49-entry cache of expired entries, the very first `set`
call sweeps (the 49 expired entries vanish, leaving only the new one);
while 50 consecutive `set` calls on the same key never sweep (an expired
entry under another key survives all 50 calls). -/
theorem claim_C4_counterexample :
    (cache49.set "new" v0 1000).cache.length = 1 ∧
    ((List.range 50).foldl (fun c _ => c.set "k" v0 1000) cacheOldOne).cache.length = 2 := by
  decide

/-- C4 amended: the expired-entry sweep inside `CacheManager.set` runs
exactly when, after the entry is stored, the number of cached keys is a
multiple of 50 — so whether it runs depends on the keys written, not on
the number of `set` calls. When it does not run the cache is exactly the
stored state, and when it runs every surviving entry is unexpired. -/
theorem claim_C4_amended (cm : CacheManager) (key : String) (v : CacheVal)
    (now : Int) :
    ((cm.setStore key v now).cache.length % 50 ≠ 0 →
      cm.set key v now = cm.setStore key v now) ∧
    ((cm.setStore key v now).cache.length % 50 = 0 →
      (cm.set key v now).cache =
        cleanExpired now cm.cacheDuration (cm.setStore key v now).cache ∧
      ∀ p ∈ (cm.set key v now).cache, now - p.2.timestamp ≤ cm.cacheDuration) := by
  constructor
  · intro h
    unfold CacheManager.set
    simp [h]
  · intro h
    have hset : cm.set key v now =
        { cm.setStore key v now with
          cache := cleanExpired now cm.cacheDuration (cm.setStore key v now).cache } := by
      unfold CacheManager.set
      simp [h]
      rfl
    constructor
    · rw [hset]
    · intro p hp
      rw [hset] at hp
      simp only [cleanExpired, List.mem_filter] at hp
      have := hp.2
      simp only [Bool.not_eq_true', decide_eq_false_iff_not, not_lt] at this
      exact this

/-- C4 witness: on an empty cache the stored size is 1, not a multiple of
50, so the first conjunct applies and the call is exactly the store. -/
theorem claim_C4_witness :
    emptyCache.set "k" v0 5 = emptyCache.setStore "k" v0 5 :=
  (claim_C4_amended emptyCache "k" v0 5).1 (by decide)

/-- Looking a key up right after `insertReplace` finds the new value. -/
theorem lookupKey_insertReplace (key : String) (v : CacheVal)
    (c : List (String × CacheVal)) :
    lookupKey key (insertReplace key v c) = some v := by
  induction c with
  | nil => simp [insertReplace, lookupKey]
  | cons p t ih =>
    by_cases h : p.1 == key
    · simp [insertReplace, h, lookupKey]
    · simp only [insertReplace, h, if_false, Bool.false_eq_true]
      simpa [lookupKey, h] using ih

/-- A filter that keeps the first binding of a key preserves its lookup. -/
theorem lookupKey_filter (key : String) (v : CacheVal)
    (p : String × CacheVal → Bool) (c : List (String × CacheVal))
    (hl : lookupKey key c = some v) (hp : p (key, v) = true) :
    lookupKey key (c.filter p) = some v := by
  induction c with
  | nil => simp [lookupKey] at hl
  | cons q t ih =>
    by_cases hq : q.1 == key
    · have hqv : q.2 = v := by simpa [lookupKey, hq] using hl
      have hkey : q.1 = key := by simpa using hq
      have hpq : p q = true := by
        have hqe : q = (key, v) := by
          cases q with
          | mk q1 q2 => simp only at hqv hkey; rw [hqv, hkey]
        rw [hqe]; exact hp
      simp [List.filter, hpq, lookupKey, hq, hqv]
    · have hl' : lookupKey key t = some v := by
        simpa [lookupKey, hq] using hl
      cases hpq : p q with
      | true => simpa [List.filter, hpq, lookupKey, hq] using ih hl'
      | false => simpa [List.filter, hpq] using ih hl'

/-- C5: after `set(k, v)` at time `t0`, a `get(k)` at a later time `t1`
returns the stored fields (with the injected timestamp) while
`t1 - t0` is within the duration, and once `t1 - t0` exceeds the duration
it returns nothing and deletes the entry. -/
theorem claim_C5_cache_round_trip (cm : CacheManager) (key : String)
    (v : CacheVal) (t0 t1 : Int) (hdur : 0 ≤ cm.cacheDuration) :
    (cm.set key v t0).get key t1 =
      (if t1 - t0 > cm.cacheDuration then
        (none, { cm.set key v t0 with
                 cache := eraseKey key (cm.set key v t0).cache })
      else
        (some { v with timestamp := t0 }, cm.set key v t0)) := by
  have hdur' : (cm.set key v t0).cacheDuration = cm.cacheDuration := by
    unfold CacheManager.set CacheManager.setStore
    dsimp only
    split <;> rfl
  have hlk : lookupKey key (cm.set key v t0).cache =
      some { v with timestamp := t0 } := by
    unfold CacheManager.set CacheManager.setStore
    dsimp only
    split
    · refine lookupKey_filter key _ _ _ (lookupKey_insertReplace key _ cm.cache) ?_
      simp only [Bool.not_eq_true', decide_eq_false_iff_not, not_lt]
      omega
    · exact lookupKey_insertReplace key _ cm.cache
  unfold CacheManager.get
  rw [hlk]
  dsimp only
  rw [hdur']

/-- C5 witness: a round trip on the empty 300-second cache, set at time 0
and read at time 10 (within the duration). -/
theorem claim_C5_witness :
    (emptyCache.set "k" v0 0).get "k" 10 =
      (some { v0 with timestamp := 0 }, emptyCache.set "k" v0 0) := by
  have h := claim_C5_cache_round_trip emptyCache "k" v0 0 10 (by decide)
  rw [h]
  norm_num [emptyCache]

/-- When the parsed track key equals the stored one, the loop body of
lines 407-431 does nothing and produces no events. -/
theorem tickBody_same_key (st : LoopState) (inp : TickInput)
    (title song : String) (artist : Option String)
    (hw : inp.windowTitle = some title)
    (hp : parseTitle title = (some song, artist))
    (hk : st.lastTrackKey = some (trackCacheKey song artist)) :
    tickBody st inp = (st, []) := by
  unfold tickBody
  simp only [hw]
  rw [hp]
  cases hst : strTruthy (some song) with
  | false => simp [hst]
  | true => simp [hst, hk]

/-- C6: on any tick whose signal parses to a song hint whose derived track
key equals the stored `last_track_key`, the loop performs no metadata
resolution and no presence publish — whichever way the reconnect guard
goes. -/
theorem claim_C6_debounce (st : LoopState) (inp : TickInput)
    (title song : String) (artist : Option String)
    (hw : inp.windowTitle = some title)
    (hp : parseTitle title = (some song, artist))
    (hk : st.lastTrackKey = some (trackCacheKey song artist)) :
    TickEvent.resolve ∉ (tick st inp).2 ∧
    ∀ b, TickEvent.publish b ∉ (tick st inp).2 := by
  unfold tick
  by_cases hr : st.connectionRetries > 0
  · by_cases hro : inp.reconnectOk
    · have h1 : tickBody { st with connectionRetries := 0 } inp =
          ({ st with connectionRetries := 0 }, []) :=
        tickBody_same_key _ inp title song artist hw hp hk
      simp [hr, hro, h1]
    · simp [hr, hro]
  · have h1 : tickBody st inp = (st, []) :=
      tickBody_same_key st inp title song artist hw hp hk
    simp [hr, h1]

/-- C6 witness: a tick replaying the already-current track
"Lo-fi Beats" performs no resolve and no publish. -/
theorem claim_C6_witness :
    TickEvent.resolve ∉
      (tick ⟨some "Lo-fi Beats|", 7, 7, 0, emptyCache⟩
        ⟨true, some "Lo-fi Beats", oracleRaises, true, 9⟩).2 ∧
    ∀ b, TickEvent.publish b ∉
      (tick ⟨some "Lo-fi Beats|", 7, 7, 0, emptyCache⟩
        ⟨true, some "Lo-fi Beats", oracleRaises, true, 9⟩).2 :=
  claim_C6_debounce _ _ "Lo-fi Beats" "Lo-fi Beats" none rfl (by decide) rfl

/-- When the signal parses to a usable song hint and the derived track key
differs from the stored one, the loop body resolves metadata and attempts
a publish; the success flag decides whether the identity fields are
updated. -/
theorem tickBody_changed_key (st : LoopState) (inp : TickInput)
    (title song : String) (artist : Option String)
    (hw : inp.windowTitle = some title)
    (hp : parseTitle title = (some song, artist))
    (hs : song ≠ "")
    (hk : st.lastTrackKey ≠ some (trackCacheKey song artist)) :
    tickBody st inp =
      (if inp.publishOk then
        ({ st with
            lastTrackKey := some (trackCacheKey song artist)
            startTimestamp := inp.now
            lastUpdateTime := inp.now
            cm := (fetchTrackMetadata inp.oracle song artist inp.now st.cm).2 },
         [.resolve, .publish true])
      else
        ({ st with cm := (fetchTrackMetadata inp.oracle song artist inp.now st.cm).2 },
         [.resolve, .publish false])) := by
  unfold tickBody
  simp only [hw]
  rw [hp]
  have hst : strTruthy (some song) = true := by simp [strTruthy, hs]
  have hk' : some (trackCacheKey song artist) ≠ st.lastTrackKey := Ne.symm hk
  simp [hst, hk']

/-- C7: on a tick where the reconnect guard passes and the parsed identity
differs from the stored one, a failed publish leaves `last_track_key` and
`start_timestamp` untouched, and a successful publish sets them to the new
key and the current time. -/
theorem claim_C7_publish_failure_keeps_state (st : LoopState)
    (inp : TickInput) (title song : String) (artist : Option String)
    (hg : st.connectionRetries = 0 ∨ inp.reconnectOk = true)
    (hw : inp.windowTitle = some title)
    (hp : parseTitle title = (some song, artist))
    (hs : song ≠ "")
    (hk : st.lastTrackKey ≠ some (trackCacheKey song artist)) :
    (inp.publishOk = false →
      (tick st inp).1.lastTrackKey = st.lastTrackKey ∧
      (tick st inp).1.startTimestamp = st.startTimestamp) ∧
    (inp.publishOk = true →
      (tick st inp).1.lastTrackKey = some (trackCacheKey song artist) ∧
      (tick st inp).1.startTimestamp = inp.now) := by
  have hbody : ∀ st' : LoopState, st'.lastTrackKey = st.lastTrackKey →
      tickBody st' inp =
        (if inp.publishOk then
          ({ st' with
              lastTrackKey := some (trackCacheKey song artist)
              startTimestamp := inp.now
              lastUpdateTime := inp.now
              cm := (fetchTrackMetadata inp.oracle song artist inp.now st'.cm).2 },
           [.resolve, .publish true])
        else
          ({ st' with cm := (fetchTrackMetadata inp.oracle song artist inp.now st'.cm).2 },
           [.resolve, .publish false])) := by
    intro st' hst'
    exact tickBody_changed_key st' inp title song artist hw hp hs (hst' ▸ hk)
  unfold tick
  by_cases hr : st.connectionRetries > 0
  · have hro : inp.reconnectOk = true := by
      rcases hg with h | h
      · omega
      · exact h
    have h1 := hbody { st with connectionRetries := 0 } rfl
    simp only [hr, if_true, hro, h1]
    cases hpo : inp.publishOk <;> simp
  · have h1 := hbody st rfl
    simp only [hr, if_false, h1]
    cases hpo : inp.publishOk <;> simp

/-- C7 witness: a new track with a failing publish leaves the identity and
the start timestamp unchanged. -/
theorem claim_C7_witness :
    (tick ⟨some "Old|", 3, 3, 0, emptyCache⟩
      ⟨false, some "Lo-fi Beats", oracleRaises, false, 9⟩).1.lastTrackKey =
        some "Old|" ∧
    (tick ⟨some "Old|", 3, 3, 0, emptyCache⟩
      ⟨false, some "Lo-fi Beats", oracleRaises, false, 9⟩).1.startTimestamp = 3 :=
  (claim_C7_publish_failure_keeps_state _ _ "Lo-fi Beats" "Lo-fi Beats" none
    (Or.inl rfl) rfl (by decide) (by decide) (by decide)).1 rfl

/-- Count of attempts in the trace of one more retryable round. -/
theorem count_attempt_cons (tail : List CEvent) :
    (CEvent.attempt :: CEvent.sleep :: tail).count CEvent.attempt =
      tail.count CEvent.attempt + 1 := by
  simp [List.count_cons]

/-- Count of sleeps in the trace of one more retryable round. -/
theorem count_sleep_cons (tail : List CEvent) :
    (CEvent.attempt :: CEvent.sleep :: tail).count CEvent.sleep =
      tail.count CEvent.sleep + 1 := by
  simp [List.count_cons]

/-- The retry loop makes at most one attempt per loop index. -/
theorem connectLoop_attempts_le (l : List AttemptOutcome) :
    (connectLoop l).2.count CEvent.attempt ≤ l.length := by
  induction l with
  | nil => simp [connectLoop]
  | cons o rest ih =>
    cases o with
    | success => simp [connectLoop]
    | fatal => simp [connectLoop]
    | retryable =>
      by_cases hr : rest.isEmpty
      · simp [connectLoop, hr]
      · simp only [connectLoop, hr, if_false, Bool.false_eq_true]
        rw [count_attempt_cons]
        simp only [List.length_cons]
        omega

/-- A non-empty loop makes at least one attempt. -/
theorem connectLoop_attempts_pos (l : List AttemptOutcome) (h : l ≠ []) :
    1 ≤ (connectLoop l).2.count CEvent.attempt := by
  cases l with
  | nil => exact absurd rfl h
  | cons o rest =>
    cases o with
    | success => simp [connectLoop]
    | fatal => simp [connectLoop]
    | retryable =>
      by_cases hr : rest.isEmpty
      · simp [connectLoop, hr]
      · simp only [connectLoop, hr, if_false, Bool.false_eq_true]
        rw [count_attempt_cons]
        omega

/-- The loop sleeps exactly once between consecutive attempts: one sleep
fewer than attempts. -/
theorem connectLoop_sleeps (l : List AttemptOutcome) :
    (connectLoop l).2.count CEvent.sleep =
      (connectLoop l).2.count CEvent.attempt - 1 := by
  induction l with
  | nil => simp [connectLoop]
  | cons o rest ih =>
    cases o with
    | success => simp [connectLoop]
    | fatal => simp [connectLoop]
    | retryable =>
      by_cases hr : rest.isEmpty
      · simp [connectLoop, hr]
      · have hpos : 1 ≤ (connectLoop rest).2.count CEvent.attempt :=
          connectLoop_attempts_pos rest (by simpa [List.isEmpty_iff] using hr)
        simp only [connectLoop, hr, if_false, Bool.false_eq_true]
        rw [count_attempt_cons, count_sleep_cons]
        omega

/-- Every attempt except possibly the last one hit a retryable error: a
success or a non-retryable error ends the loop at once. -/
theorem connectLoop_prefix_retryable (l : List AttemptOutcome) :
    ∀ i, i + 1 < (connectLoop l).2.count CEvent.attempt →
      l.get? i = some .retryable := by
  induction l with
  | nil => intro i h; simp [connectLoop] at h
  | cons o rest ih =>
    intro i h
    cases o with
    | success => simp [connectLoop] at h
    | fatal => simp [connectLoop] at h
    | retryable =>
      by_cases hr : rest.isEmpty
      · simp [connectLoop, hr] at h
      · simp only [connectLoop, hr, if_false, Bool.false_eq_true] at h
        rw [count_attempt_cons] at h
        cases i with
        | zero => rfl
        | succ j =>
          have hj : j + 1 < (connectLoop rest).2.count CEvent.attempt := by omega
          simpa using ih j hj

/-- The loop reports success exactly when its last attempt succeeded. -/
theorem connectLoop_ok_iff (l : List AttemptOutcome) :
    (connectLoop l).1 = true ↔
      1 ≤ (connectLoop l).2.count CEvent.attempt ∧
      l.get? ((connectLoop l).2.count CEvent.attempt - 1) = some .success := by
  induction l with
  | nil => simp [connectLoop]
  | cons o rest ih =>
    cases o with
    | success => simp [connectLoop]
    | fatal => simp [connectLoop]
    | retryable =>
      by_cases hr : rest.isEmpty
      · simp [connectLoop, hr]
      · have hpos : 1 ≤ (connectLoop rest).2.count CEvent.attempt :=
          connectLoop_attempts_pos rest (by simpa [List.isEmpty_iff] using hr)
        simp only [connectLoop, hr, if_false, Bool.false_eq_true]
        rw [count_attempt_cons]
        have hidx : (connectLoop rest).2.count CEvent.attempt + 1 - 1 =
            ((connectLoop rest).2.count CEvent.attempt - 1) + 1 := by omega
        rw [hidx]
        simp only [List.get?_cons_succ]
        rw [ih]
        constructor
        · rintro ⟨h1, h2⟩
          exact ⟨by omega, h2⟩
        · rintro ⟨h1, h2⟩
          exact ⟨hpos, h2⟩

/-- The events and the boolean of `connect_discord` come from the retry
loop over the `MAX_RETRIES` attempt outcomes. -/
theorem connectDiscord_proj (outcomes : Nat → AttemptOutcome)
    (maxRetries retries : Nat) :
    (connectDiscord outcomes maxRetries retries).events =
      (connectLoop ((List.range maxRetries).map outcomes)).2 ∧
    (connectDiscord outcomes maxRetries retries).ok =
      (connectLoop ((List.range maxRetries).map outcomes)).1 := by
  unfold connectDiscord
  dsimp only
  split
  · next h => simp [h]
  · next h => simp [Bool.not_eq_true] at h; simp [h]

/-- C8: `connect_discord` makes at most `MAX_RETRIES` attempts; it sleeps
exactly once between consecutive attempts (one sleep fewer than attempts);
every attempt before the last had one of the two retryable errors, so a
success or any other exception ends the loop at once; the call returns
`True` exactly when its last attempt succeeded; a successful call resets
`connection_retries` to 0, and a failed call increments it by exactly
one. -/
theorem claim_C8_connect_retry_protocol (outcomes : Nat → AttemptOutcome)
    (maxRetries retries : Nat) :
    (connectDiscord outcomes maxRetries retries).events.count CEvent.attempt ≤
        maxRetries ∧
    (connectDiscord outcomes maxRetries retries).events.count CEvent.sleep =
      (connectDiscord outcomes maxRetries retries).events.count CEvent.attempt - 1 ∧
    (∀ i, i + 1 <
        (connectDiscord outcomes maxRetries retries).events.count CEvent.attempt →
      outcomes i = .retryable) ∧
    ((connectDiscord outcomes maxRetries retries).ok = true ↔
      1 ≤ (connectDiscord outcomes maxRetries retries).events.count CEvent.attempt ∧
      outcomes
        ((connectDiscord outcomes maxRetries retries).events.count CEvent.attempt - 1) =
        .success) ∧
    ((connectDiscord outcomes maxRetries retries).ok = true →
      (connectDiscord outcomes maxRetries retries).retries = 0) ∧
    ((connectDiscord outcomes maxRetries retries).ok = false →
      (connectDiscord outcomes maxRetries retries).retries = retries + 1) := by
  obtain ⟨hev, hok⟩ := connectDiscord_proj outcomes maxRetries retries
  rw [hev, hok]
  have hlen : ((List.range maxRetries).map outcomes).length = maxRetries := by
    simp
  refine ⟨?_, connectLoop_sleeps _, ?_, ?_, ?_, ?_⟩
  · calc (connectLoop ((List.range maxRetries).map outcomes)).2.count CEvent.attempt
        ≤ ((List.range maxRetries).map outcomes).length := connectLoop_attempts_le _
      _ = maxRetries := hlen
  · intro i hi
    have h := connectLoop_prefix_retryable ((List.range maxRetries).map outcomes) i hi
    have hilt : i < maxRetries := by
      have := connectLoop_attempts_le ((List.range maxRetries).map outcomes)
      omega
    rw [List.get?_eq_getElem?, List.getElem?_map, List.getElem?_range hilt] at h
    simpa using h
  · rw [connectLoop_ok_iff]
    constructor
    · rintro ⟨h1, h2⟩
      refine ⟨h1, ?_⟩
      have hlt : (connectLoop ((List.range maxRetries).map outcomes)).2.count
          CEvent.attempt - 1 < maxRetries := by
        have := connectLoop_attempts_le ((List.range maxRetries).map outcomes)
        omega
      rw [List.get?_eq_getElem?, List.getElem?_map, List.getElem?_range hlt] at h2
      simpa using h2
    · rintro ⟨h1, h2⟩
      refine ⟨h1, ?_⟩
      have hlt : (connectLoop ((List.range maxRetries).map outcomes)).2.count
          CEvent.attempt - 1 < maxRetries := by
        have := connectLoop_attempts_le ((List.range maxRetries).map outcomes)
        omega
      rw [List.get?_eq_getElem?, List.getElem?_map, List.getElem?_range hlt]
      simp [h2]
  · intro h
    unfold connectDiscord
    dsimp only
    simp [h]
  · intro h
    unfold connectDiscord
    dsimp only
    simp [h]

/-- Outcome sequence used by the C8 witness: a retryable failure, then
success. -/
def retryThenSuccess : Nat → AttemptOutcome :=
  fun i => if i = 0 then .retryable else .success

/-- C8 witness: with one retryable failure followed by a success within
three allowed attempts, the successful call resets the counter to zero. -/
theorem claim_C8_witness :
    (connectDiscord retryThenSuccess 3 7).retries = 0 :=
  (claim_C8_connect_retry_protocol retryThenSuccess 3 7).2.2.2.2.1 (by decide)

/-- The additive match score is never negative. -/
theorem calcMatchScore_nonneg (r : SearchResult) (s : String)
    (a : Option String) : 0 ≤ calcMatchScore r s a := by
  unfold calcMatchScore
  dsimp only
  split_ifs <;> norm_num

/-- A falsy (empty-dict) search result scores zero: it has no title to
match, no artists and no category. -/
theorem falsy_score_zero (r : SearchResult) (hr : r.truthy = false)
    (s : String) (a : Option String) : calcMatchScore r s a = 0 := by
  obtain ⟨title, artists, thumbs, vid, dur, cat, other⟩ := r
  simp only [SearchResult.truthy, Bool.or_eq_false_iff] at hr
  obtain ⟨⟨⟨⟨⟨⟨h1, h2⟩, h3⟩, h4⟩, h5⟩, h6⟩, h7⟩ := hr
  have ht : title = none := by
    cases title with
    | none => rfl
    | some t => simp at h1
  have ha : artists = none := by
    cases artists with
    | none => rfl
    | some l => simp at h2
  have hc : cat = none := by
    cases cat with
    | none => rfl
    | some c => simp at h6
  subst ht; subst ha; subst hc
  simp [calcMatchScore, artistsTruthy, pyLowerL]

/-- The scoring loop keeps a selected candidate once it has one. -/
theorem pickLoop_isSome (s : String) (a : Option String)
    (l : List SearchResult) : ∀ (bs : Int) (r0 : SearchResult),
    ∃ r, pickLoop s a l bs (some r0) = some r := by
  induction l with
  | nil => intro bs r0; exact ⟨r0, rfl⟩
  | cons x t ih =>
    intro bs r0
    unfold pickLoop
    dsimp only
    split
    · exact ih _ x
    · exact ih _ r0

/-- Once the running best score is nonnegative, the loop's final pick is
either the incumbent or a candidate with a strictly positive score. -/
theorem pickLoop_mem_or (s : String) (a : Option String)
    (l : List SearchResult) : ∀ (bs : Int) (r0 r : SearchResult),
    0 ≤ bs → pickLoop s a l bs (some r0) = some r →
    r = r0 ∨ 0 < calcMatchScore r s a := by
  induction l with
  | nil =>
    intro bs r0 r hbs h
    left
    simpa [pickLoop] using h.symm
  | cons x t ih =>
    intro bs r0 r hbs h
    unfold pickLoop at h
    dsimp only at h
    by_cases hsc : calcMatchScore x s a > bs
    · rw [if_pos hsc] at h
      rcases ih _ x r (le_of_lt (lt_of_le_of_lt hbs hsc)) h with h1 | h1
      · right
        rw [h1]
        exact lt_of_le_of_lt hbs hsc
      · right; exact h1
    · rw [if_neg hsc] at h
      exact ih _ r0 r hbs h

/-- On a non-empty result list the loop accepts the first candidate in its
first round, because every score beats the initial `-1`. -/
theorem loopBest_cons (s : String) (a : Option String) (x : SearchResult)
    (t : List SearchResult) :
    loopBest (x :: t) s a =
      pickLoop s a (t.take 2) (calcMatchScore x s a) (some x) := by
  have h0 : (-1 : Int) < calcMatchScore x s a := by
    have h1 : (0 : Int) ≤ calcMatchScore x s a := calcMatchScore_nonneg x s a
    omega
  unfold loopBest
  simp only [List.take_succ_cons]
  conv_lhs => rw [pickLoop]
  rw [if_pos h0]

/-- C10 counterexample: on the non-empty result list `[{}]` the guard
`if not best_result:` of line 282 fires — the loop selected the first
candidate, but the empty dict is falsy — so the guard branch is not
unreachable. -/
theorem claim_C10_counterexample :
    fallbackGuardFires [emptyResult] "a" none = true ∧
    ([emptyResult] : List SearchResult) ≠ [] := by
  constructor
  · decide
  · decide

/-- C10 amended: for every non-empty result list the scoring loop selects
some candidate (the first is always accepted, since scores are nonnegative
and the best score starts at `-1`), so the guard never changes the
selection: it can fire — only when the selected best is a falsy dict — but
in that case the selection necessarily is the first result, which is what
the guard re-assigns. -/
theorem claim_C10_amended (results : List SearchResult) (s : String)
    (a : Option String) (hne : results ≠ []) :
    ∃ r, loopBest results s a = some r ∧ selectBest results s a = some r := by
  obtain ⟨x, t, rfl⟩ := List.exists_cons_of_ne_nil hne
  obtain ⟨r, hr⟩ := pickLoop_isSome s a (t.take 2) (calcMatchScore x s a) x
  have hlb : loopBest (x :: t) s a = some r := by
    rw [loopBest_cons, hr]
  refine ⟨r, hlb, ?_⟩
  unfold selectBest
  dsimp only
  rw [hlb]
  by_cases htr : r.truthy
  · simp [optResultTruthy, htr]
  · have htr' : r.truthy = false := by simpa using htr
    have hsc0 : calcMatchScore r s a = 0 := falsy_score_zero r htr' s a
    rcases pickLoop_mem_or s a (t.take 2) (calcMatchScore x s a) x r
        (calcMatchScore_nonneg x s a) hr with h1 | h1
    · subst h1
      simp [optResultTruthy, htr']
    · rw [hsc0] at h1
      exact absurd h1 (by norm_num)

/-- C10 witness: on the singleton empty-dict list the guard fires but the
final selection still equals the loop's pick. -/
theorem claim_C10_witness :
    selectBest [emptyResult] "a" none = loopBest [emptyResult] "a" none := by
  obtain ⟨r, h1, h2⟩ := claim_C10_amended [emptyResult] "a" none (by decide)
  rw [h1, h2]
